import Mathlib

/-!
Verification of the scope/instance lifecycle model of the runner-dashboard
repository.  Rust strings are embedded as lists of characters (`Str`), the
`RunnerScope` sum type and its derivations are translated from
`src/github.rs`, the metrics aggregation from `src/metrics/db.rs` and
`src/metrics/models.rs`, and the `add_runner` orchestration from
`src/runner.rs` as an explicit effect-trace function.
-/

namespace RunnerDashboard

/-- Rust `&str` / `String`, embedded as a list of unicode scalar values. -/
abbrev Str := List Char

/-- Rust `str::strip_prefix`: `some` of the remainder when `p` is a prefix. -/
def stripPref (p s : Str) : Option Str :=
  if p.isPrefixOf s then some (s.drop p.length) else none

/-- Rust `str::find(pat)` for a literal pattern: index of the first
occurrence of `pat` as a contiguous substring. -/
def findSS (pat : Str) : Str → Option Nat
  | [] => if pat = [] then some 0 else none
  | c :: cs =>
    if pat.isPrefixOf (c :: cs) then some 0
    else (findSS pat cs).map (· + 1)

/-- Rust `str::contains(pat)` for a literal pattern. -/
def containsSS (pat : Str) : Str → Bool
  | [] => pat.isEmpty
  | c :: cs => pat.isPrefixOf (c :: cs) || containsSS pat cs

/-- Rust `str::split(sep)`: splits on every occurrence of `sep`;
the empty string yields `[[]]`, matching Rust's `"".split` behaviour. -/
def splitAll (sep : Char) : Str → List Str
  | [] => [[]]
  | c :: cs =>
    if c = sep then [] :: splitAll sep cs
    else
      match splitAll sep cs with
      | [] => [[c]]
      | h :: t => (c :: h) :: t

/-- Rust `str::trim_end_matches(sep)`: removes every trailing `sep`. -/
def dropTrailing (sep : Char) (s : Str) : Str :=
  (s.reverse.dropWhile (· == sep)).reverse

/-- `true` iff the string contains two consecutive underscores. -/
def hasDoubleUS : Str → Bool
  | c1 :: c2 :: rest => (c1 = '_' && c2 = '_') || hasDoubleUS (c2 :: rest)
  | _ => false

/-- `RunnerScope` from `src/github.rs`: a repository (owner + repo) or an
organization scope for runner management. -/
inductive RunnerScope
  | Repository (owner repo : Str)
  | Organization (org : Str)
  deriving DecidableEq, Repr

namespace RunnerScope

/-- `RunnerScope::parse` (`src/github.rs:33-58`): accepts `owner/repo`
or `org:name` identifiers. -/
def parse (identifier : Str) : Except String RunnerScope :=
  match stripPref "org:".data identifier with
  | some orgName =>
    if orgName = [] then .error "Organization name cannot be empty"
    else if '/' ∈ orgName then .error "Organization name cannot contain a slash"
    else .ok (.Organization orgName)
  | none =>
    if '/' ∈ identifier then
      let owner := identifier.takeWhile (· != '/')
      let repo := (identifier.dropWhile (· != '/')).drop 1
      if owner = [] ∨ repo = [] then .error "Repository must be in owner/repo format"
      else .ok (.Repository owner repo)
    else .error "Invalid identifier: use owner/repo for repositories or org:name for organizations"

/-- `RunnerScope::to_dir_name` (`src/github.rs:61-66`). -/
def to_dir_name : RunnerScope → Str
  | .Repository owner repo => owner ++ "__".data ++ repo
  | .Organization org => "org__".data ++ org

/-- `RunnerScope::to_display` (`src/github.rs:69-74`). -/
def to_display : RunnerScope → Str
  | .Repository owner repo => owner ++ "/".data ++ repo
  | .Organization org => "org:".data ++ org

/-- `RunnerScope::github_url` (`src/github.rs:77-84`). -/
def github_url : RunnerScope → Str
  | .Repository owner repo => "https://github.com/".data ++ owner ++ "/".data ++ repo
  | .Organization org => "https://github.com/".data ++ org

/-- `RunnerScope::api_path` (`src/github.rs:145-150`). -/
def api_path : RunnerScope → Str
  | .Repository owner repo => "repos/".data ++ owner ++ "/".data ++ repo
  | .Organization org => "orgs/".data ++ org

/-- `RunnerScope::from_github_url` (`src/github.rs:86-112`). -/
def from_github_url (url : Str) : Except String RunnerScope :=
  match (stripPref "https://github.com/".data url).orElse
      (fun _ => stripPref "http://github.com/".data url) with
  | none => .error "Unexpected GitHub URL format"
  | some path =>
    let path := dropTrailing '/' path
    match splitAll '/' path with
    | [a] => if a ≠ [] then .ok (.Organization a) else .error "Cannot determine scope from URL"
    | [a, b] =>
      if a ≠ [] ∧ b ≠ [] then .ok (.Repository a b)
      else .error "Cannot determine scope from URL"
    | _ => .error "Cannot determine scope from URL"

/-- The `owner__repo` branch of `from_dir_name` (`src/github.rs:124-134`):
split on the first `__`, both parts non-empty, owner not literally `org`. -/
def fromDirRepo (dirName : Str) : Option RunnerScope :=
  match findSS "__".data dirName with
  | some idx =>
    let owner := dirName.take idx
    let repo := dirName.drop (idx + 2)
    if owner ≠ [] ∧ repo ≠ [] ∧ owner ≠ "org".data then some (.Repository owner repo)
    else none
  | none => none

/-- `RunnerScope::from_dir_name` (`src/github.rs:114-137`).  The `org__`
branch only returns early when the stripped name is non-empty; otherwise
the `owner__repo` attempt runs, mirroring the Rust control flow. -/
def from_dir_name (dirName : Str) : Option RunnerScope :=
  match stripPref "org__".data dirName with
  | some orgName =>
    if orgName ≠ [] then some (.Organization orgName) else fromDirRepo dirName
  | none => fromDirRepo dirName

/-- `RunnerScope::supports_workflow_runs` (`src/github.rs:140-142`). -/
def supports_workflow_runs : RunnerScope → Bool
  | .Repository _ _ => true
  | .Organization _ => false

end RunnerScope

deriving instance DecidableEq for Except

/-- Byte length of a string under UTF-8 (Rust `String::len`). -/
def byteLen (s : Str) : Nat := (s.map Char.utf8Size).sum

/-- Rust byte slice `&s[..n]`: `some` of the prefix whose UTF-8 encoding
is exactly `n` bytes when `n` is a character boundary within `s`,
`none` (a panic in Rust) otherwise. -/
def slicePrefBytes : Str → Nat → Option Str
  | _, 0 => some []
  | [], _ + 1 => none
  | c :: cs, n + 1 =>
    if c.utf8Size ≤ n + 1 then (slicePrefBytes cs (n + 1 - c.utf8Size)).map (c :: ·)
    else none

/-- The runner display name before truncation, `{hostname}-{dir_name}`
(`src/runner.rs:243-244`). -/
def rawRunnerName (hostname : Str) (scope : RunnerScope) : Str :=
  hostname ++ "-".data ++ scope.to_dir_name

/-- The truncation `&runner_name[..runner_name.len().min(64)]`
(`src/runner.rs:245`): a byte slice at index `min(len, 64)`, where `none`
models the Rust panic raised when that index is not a character boundary. -/
def truncate64 (name : Str) : Option Str :=
  slicePrefBytes name (min (byteLen name) 64)

/-- Label normalization in `add_runner` (`src/runner.rs:209-212`):
prepend `self-hosted,` when the string does not contain `self-hosted`
as a substring. -/
def normalize_labels (labels : Str) : Str :=
  if containsSS "self-hosted".data labels then labels
  else "self-hosted,".data ++ labels

/-- `Trend` from `src/metrics/models.rs`. -/
inductive Trend
  | Up
  | Down
  | Stable
  deriving DecidableEq, Repr

/-- `MetricsDb::calculate_trend` (`src/metrics/db.rs:428-440`), the `f64`
arithmetic embedded exactly over the rationals. -/
def calculate_trend (current previous : ℚ) : Trend :=
  let diff := current - previous
  if |diff| < 5 / 100 then .Stable
  else if diff > 0 then .Up
  else .Down

/-- `StoredWorkflowRun` from `src/metrics/models.rs:59-69`. -/
structure StoredWorkflowRun where
  github_run_id : Int
  scope_identifier : Str
  status : Str
  conclusion : Option Str
  created_at : Str
  updated_at : Str
  recorded_at : Int
  duration_seconds : Option Int
  deriving DecidableEq, Repr

/-- `RunnerSnapshot` from `src/metrics/models.rs:72-80`. -/
structure RunnerSnapshotRow where
  scope_identifier : Str
  runner_id : Int
  runner_name : Str
  status : Str
  busy : Bool
  recorded_at : Int
  deriving DecidableEq, Repr

/-- The SQL row filter shared by the current-window queries: scope
matches, recorded at or after the cutoff, status `completed`. -/
def inWindow (sid : Str) (cutoff : Int) (r : StoredWorkflowRun) : Bool :=
  r.scope_identifier == sid && decide (cutoff ≤ r.recorded_at) && r.status == "completed".data

/-- The SQL row filter of the `_range` queries: recorded in `[start, stop)`. -/
def inRange (sid : Str) (start stop : Int) (r : StoredWorkflowRun) : Bool :=
  r.scope_identifier == sid && decide (start ≤ r.recorded_at) &&
    decide (r.recorded_at < stop) && r.status == "completed".data

/-- Rust `f64 as u32` (saturating, truncating toward zero) on an exact
rational value. -/
def f64_as_u32 (q : ℚ) : Nat :=
  if q ≤ 0 then 0 else min (Int.toNat ⌊q⌋) (2 ^ 32 - 1)

/-- Rust `i64 as u32` (wrapping). -/
def i64_as_u32 (v : Int) : Nat := (v % (2 ^ 32 : Int)).toNat

/-- `MetricsDb::get_run_counts` (`src/metrics/db.rs:227-248`):
`(total, successful, failed)` over completed runs since the cutoff; the
SQL `COUNT`/`SUM` columns come back as `i64` and each is cast with
`as u32` (`db.rs:241-243`), which wraps modulo `2^32`. -/
def get_run_counts (runs : List StoredWorkflowRun) (sid : Str) (cutoff : Int) :
    Nat × Nat × Nat :=
  let rows := runs.filter (inWindow sid cutoff)
  (i64_as_u32 (rows.length : Int),
   i64_as_u32 ((rows.filter (fun r => r.conclusion == some "success".data)).length : Int),
   i64_as_u32 ((rows.filter (fun r => r.conclusion == some "failure".data)).length : Int))

/-- `MetricsDb::get_run_counts_range` (`src/metrics/db.rs:251-277`), with
the same `i64 as u32` wrapping casts on the row values (`db.rs:268-273`). -/
def get_run_counts_range (runs : List StoredWorkflowRun) (sid : Str) (start stop : Int) :
    Nat × Nat × Nat :=
  let rows := runs.filter (inRange sid start stop)
  (i64_as_u32 (rows.length : Int),
   i64_as_u32 ((rows.filter (fun r => r.conclusion == some "success".data)).length : Int),
   i64_as_u32 ((rows.filter (fun r => r.conclusion == some "failure".data)).length : Int))

/-- SQL `MIN` over a column of integers. -/
def sqlMin : List Int → Option Int
  | [] => none
  | x :: xs => some (xs.foldl min x)

/-- SQL `MAX` over a column of integers. -/
def sqlMax : List Int → Option Int
  | [] => none
  | x :: xs => some (xs.foldl max x)

/-- `MetricsDb::get_duration_stats` (`src/metrics/db.rs:280-308`):
`(avg, min, max)` of the non-null durations of completed runs since the
cutoff, each cast to `u32` exactly as in the Rust row mapping. -/
def get_duration_stats (runs : List StoredWorkflowRun) (sid : Str) (cutoff : Int) :
    Option Nat × Option Nat × Option Nat :=
  let ds : List Int := (runs.filter (inWindow sid cutoff)).filterMap (·.duration_seconds)
  match ds with
  | [] => (none, none, none)
  | _ =>
    (some (f64_as_u32 ((ds.sum : ℚ) / (ds.length : ℚ))),
     (sqlMin ds).map i64_as_u32,
     (sqlMax ds).map i64_as_u32)

/-- `MetricsDb::get_duration_stats_range` (`src/metrics/db.rs:311-341`). -/
def get_duration_stats_range (runs : List StoredWorkflowRun) (sid : Str) (start stop : Int) :
    Option Nat × Option Nat × Option Nat :=
  let ds : List Int := (runs.filter (inRange sid start stop)).filterMap (·.duration_seconds)
  match ds with
  | [] => (none, none, none)
  | _ =>
    (some (f64_as_u32 ((ds.sum : ℚ) / (ds.length : ℚ))),
     (sqlMin ds).map i64_as_u32,
     (sqlMax ds).map i64_as_u32)

/-- `MetricsDb::get_runner_uptime` (`src/metrics/db.rs:344-364`). -/
def get_runner_uptime (snaps : List RunnerSnapshotRow) (sid : Str) (cutoff : Int) :
    Option ℚ :=
  let rows := snaps.filter (fun r => r.scope_identifier == sid && decide (cutoff ≤ r.recorded_at))
  if rows.length > 0 then
    some (((rows.filter (fun r => r.status == "online".data)).length : ℚ) / (rows.length : ℚ) * 100)
  else none

/-- `ScopeMetrics` from `src/metrics/models.rs:23-45`. -/
structure ScopeMetrics where
  total_runs : Nat := 0
  successful_runs : Nat := 0
  failed_runs : Nat := 0
  success_rate : ℚ := 0
  success_trend : Option Trend := none
  avg_duration_seconds : Option Nat := none
  min_duration_seconds : Option Nat := none
  max_duration_seconds : Option Nat := none
  duration_trend : Option Trend := none
  runner_uptime : Option ℚ := none
  deriving DecidableEq, Repr

/-- `ScopeMetrics::calculate_success_rate` (`src/metrics/models.rs:47-56`). -/
def ScopeMetrics.calculate_success_rate (m : ScopeMetrics) : ScopeMetrics :=
  if m.total_runs > 0 then
    { m with success_rate := ((m.successful_runs : ℚ) / (m.total_runs : ℚ)) * 100 }
  else
    { m with success_rate := 0 }

/-- `MetricsDb::get_scope_metrics` (`src/metrics/db.rs:181-224`), with the
database embedded as the lists of stored rows and `Utc::now()` passed in
as the `now` timestamp in seconds. -/
def get_scope_metrics (runs : List StoredWorkflowRun) (snaps : List RunnerSnapshotRow)
    (scope : RunnerScope) (days : Int) (now : Int) : ScopeMetrics :=
  let scope_id := scope.to_display
  let cutoff := now - days * 86400
  let previous_cutoff := now - days * 2 * 86400
  let counts := get_run_counts runs scope_id cutoff
  let durations := get_duration_stats runs scope_id cutoff
  let uptime := get_runner_uptime snaps scope_id cutoff
  let prev_counts := get_run_counts_range runs scope_id previous_cutoff cutoff
  let prev_durations := get_duration_stats_range runs scope_id previous_cutoff cutoff
  let metrics : ScopeMetrics :=
    { total_runs := counts.1, successful_runs := counts.2.1, failed_runs := counts.2.2,
      avg_duration_seconds := durations.1, min_duration_seconds := durations.2.1,
      max_duration_seconds := durations.2.2, runner_uptime := uptime }
  let metrics := metrics.calculate_success_rate
  let metrics :=
    if counts.1 > 0 ∧ prev_counts.1 > 0 then
      { metrics with success_trend := some (calculate_trend
          ((counts.2.1 : ℚ) / (counts.1 : ℚ)) ((prev_counts.2.1 : ℚ) / (prev_counts.1 : ℚ))) }
    else metrics
  match durations.1, prev_durations.1 with
  | some current_avg, some prev_avg =>
    { metrics with duration_trend := some (calculate_trend (prev_avg : ℚ) (current_avg : ℚ)) }
  | _, _ => metrics

/-- The fields of `Config` (`src/config.rs`) that the lifecycle
orchestrator reads. -/
structure Config where
  instances_base : Str
  runner_user : Str
  github_pat : Str

/-- `Config::instances_dir` (`src/config.rs:115-117`). -/
def Config.instances_dir (c : Config) : Str := c.instances_base ++ "/instances".data

/-- `Config::template_dir` (`src/config.rs:119-121`). -/
def Config.template_dir (c : Config) : Str := c.instances_base ++ "/template".data

/-- `Config::instance_dir` (`src/config.rs:123-125`). -/
def Config.instance_dir (c : Config) (scope : RunnerScope) : Str :=
  c.instances_dir ++ "/".data ++ scope.to_dir_name

/-- Externally visible effects of the lifecycle orchestrator, recorded in
order: a registration-token request to the GitHub client, or an external
command run through `run_cmd` / `run_cmd_in_dir`. -/
inductive Effect
  | regToken (apiPath : Str)
  | cmd (program : Str) (args : List Str)
  | cmdInDir (dir : Str) (program : Str) (args : List Str)
  deriving DecidableEq, Repr

/-- Result of one `add_runner` invocation: normal return, an
`anyhow::bail!` error, or a Rust panic. -/
inductive RunOutcome
  | ok
  | failure (msg : String)
  | panicked
  deriving DecidableEq, Repr

/-- The external facts `add_runner` consults: whether the instance
directory already exists, the hostname lookup, the GitHub client's
registration-token response, and whether each external command exits
successfully. -/
structure AddEnv where
  dirExists : Bool
  hostname : Option Str
  regTokenResult : Except String Str
  cmdOk : Str → List Str → Bool

/-- `add_runner` (`src/runner.rs:200-288`), embedded as a function from
the external environment to an outcome plus the ordered trace of effects
it performed.  Each shell command is recorded when attempted; a failing
command aborts the sequence, mirroring the `?` operator; the byte
truncation of the runner name is the one place the code can panic. -/
def add_runner (env : AddEnv) (config : Config) (scope : RunnerScope) (labels : Str) :
    RunOutcome × List Effect :=
  let dir := config.instance_dir scope
  if env.dirExists then (.failure "Runner already configured. Use remove first.", [])
  else
    let labels := normalize_labels labels
    match env.regTokenResult with
    | .error e => (.failure e, [.regToken scope.api_path])
    | .ok token =>
      let t0 : List Effect := [.regToken scope.api_path]
      let mkdirArgs := ["mkdir".data, "-p".data, dir]
      let t1 := t0 ++ [.cmd "sudo".data mkdirArgs]
      if !env.cmdOk "sudo".data mkdirArgs then (.failure "command failed", t1) else
      let chownArgs := ["chown".data, config.runner_user, dir]
      let t2 := t1 ++ [.cmd "sudo".data chownArgs]
      if !env.cmdOk "sudo".data chownArgs then (.failure "command failed", t2) else
      let cpArgs := ["-u".data, config.runner_user, "cp".data, "-a".data,
        config.template_dir ++ "/.".data, dir ++ "/".data]
      let t3 := t2 ++ [.cmd "sudo".data cpArgs]
      if !env.cmdOk "sudo".data cpArgs then (.failure "command failed", t3) else
      let hostname := env.hostname.getD "runner".data
      match truncate64 (rawRunnerName hostname scope) with
      | none => (.panicked, t3)
      | some runner_name =>
        let configArgs := ["-u".data, config.runner_user, dir ++ "/config.sh".data,
          "--url".data, scope.github_url, "--token".data, token, "--name".data, runner_name,
          "--labels".data, labels, "--unattended".data, "--replace".data]
        let t4 := t3 ++ [.cmd "sudo".data configArgs]
        if !env.cmdOk "sudo".data configArgs then (.failure "command failed", t4) else
        let installArgs := [dir ++ "/svc.sh".data, "install".data, config.runner_user]
        let t5 := t4 ++ [.cmdInDir dir "sudo".data installArgs]
        if !env.cmdOk "sudo".data installArgs then (.failure "command failed", t5) else
        let startArgs := [dir ++ "/svc.sh".data, "start".data]
        let t6 := t5 ++ [.cmdInDir dir "sudo".data startArgs]
        if !env.cmdOk "sudo".data startArgs then (.failure "command failed", t6) else
        (.ok, t6)

/-- The BOM strip `content.strip_prefix('\u{feff}').unwrap_or(content)`
(`src/runner.rs:744`). -/
def strip_bom (content : Str) : Str :=
  match content with
  | c :: rest => if c = '\uFEFF' then rest else content
  | [] => content

/-- `parse_scope_from_runner_config` (`src/runner.rs:733-754`), with
`serde_json::from_str::<RunnerConfig>` — an out-of-scope external
collaborator — passed in as `jsonGitHubUrl`: `none` models a JSON parse
error, `some g` a parsed object whose optional `gitHubUrl` field is `g`. -/
def parse_scope_from_runner_config (jsonGitHubUrl : Str → Option (Option Str))
    (content : Str) : Except String RunnerScope :=
  let content := strip_bom content
  match jsonGitHubUrl content with
  | none => .error "Failed to parse .runner file as JSON"
  | some none => .error "No gitHubUrl found in .runner file"
  | some (some url) => RunnerScope.from_github_url url

/-! ### Specification-side predicates and concrete fixtures used by the
claims -/

/-- The error message of the fail-fast path of `add_runner`. -/
def alreadyConfiguredMsg : String := "Runner already configured. Use remove first."

/-- A concrete stand-in for the external JSON parser used by the C10
witness: recognizes the single document `j` with a repository URL. -/
def c10Json : Str → Option (Option Str) :=
  fun c => if c = "j".data then some (some "https://github.com/a/b".data) else none

/-- C2's acceptance condition as amended: an `org:` identifier needs a
non-empty name with no slash; any other identifier must contain a slash,
with non-empty text before the first slash and a non-empty remainder
after it — the remainder may itself contain further slashes and becomes
the repo field verbatim. -/
def ParseSpecAmended (identifier : Str) : Prop :=
  (∃ name, stripPref "org:".data identifier = some name ∧ name ≠ [] ∧ '/' ∉ name) ∨
  (stripPref "org:".data identifier = none ∧
    ∃ a b, identifier = a ++ '/' :: b ∧ '/' ∉ a ∧ a ≠ [] ∧ b ≠ [])

/-- The hostname of the C6 counterexample: 63 ASCII characters followed
by a two-byte character, so that byte index 64 of the derived runner
name falls strictly inside the multi-byte character. -/
def c6Hostname : Str := List.replicate 63 'a' ++ ['é']

/-- Validity of a scope as C1 states it: repository owner and repo
non-empty, neither containing `/`, owner not literally `org`;
organization name non-empty. -/
def ValidScope : RunnerScope → Prop
  | .Repository owner repo =>
      owner ≠ [] ∧ repo ≠ [] ∧ '/' ∉ owner ∧ '/' ∉ repo ∧ owner ≠ "org".data
  | .Organization org => org ≠ []

instance : DecidablePred ValidScope := fun s =>
  match s with
  | .Repository _ _ => by unfold ValidScope; infer_instance
  | .Organization _ => by unfold ValidScope; infer_instance

/-- The single-row database of the C4 witness: one completed successful
run inside the current window. -/
def c4Runs : List StoredWorkflowRun :=
  [{ github_run_id := 1, scope_identifier := "a/b".data, status := "completed".data,
     conclusion := some "success".data, created_at := [], updated_at := [],
     recorded_at := 0, duration_seconds := none }]

/-- A completed successful run inside the window of the C4
counterexample database. -/
def c4SuccessRow : StoredWorkflowRun :=
  { github_run_id := 1, scope_identifier := "a/b".data, status := "completed".data,
    conclusion := some "success".data, created_at := [], updated_at := [],
    recorded_at := 0, duration_seconds := none }

/-- A completed run without a conclusion inside the window of the C4
counterexample database: it counts in the total but is neither
successful nor failed. -/
def c4OtherRow : StoredWorkflowRun :=
  { github_run_id := 2, scope_identifier := "a/b".data, status := "completed".data,
    conclusion := none, created_at := [], updated_at := [],
    recorded_at := 0, duration_seconds := none }

/-- The C4 counterexample database: `2^32 + 1` completed rows in the
window, 5 of them successful, so the `i64 as u32` cast wraps the total
count to 1 while the successful count stays 5. -/
def c4BigRuns : List StoredWorkflowRun :=
  List.replicate 5 c4SuccessRow ++ List.replicate (2 ^ 32 - 4) c4OtherRow

/-- The two-row database of the C3 witness: one completed run with
duration 100 in the current window and one with duration 300 in the
previous window. -/
def c3Runs : List StoredWorkflowRun :=
  [{ github_run_id := 1, scope_identifier := "a/b".data, status := "completed".data,
     conclusion := some "success".data, created_at := [], updated_at := [],
     recorded_at := 500000, duration_seconds := some 100 },
   { github_run_id := 2, scope_identifier := "a/b".data, status := "completed".data,
     conclusion := some "success".data, created_at := [], updated_at := [],
     recorded_at := 0, duration_seconds := some 300 }]

/-- The `org__name` directory shape, worded from the claim: a literal
`org__` prefix followed by a non-empty name. -/
def OrgDirShapeSpec (d : Str) : Prop :=
  ∃ g, stripPref "org__".data d = some g ∧ g ≠ []

/-- The `owner__repo` directory shape, worded from the claim: both parts
around the first `__` non-empty and the owner not literally `org`. -/
def RepoDirShapeSpec (d : Str) : Prop :=
  ∃ i, findSS "__".data d = some i ∧
    d.take i ≠ [] ∧ d.drop (i + 2) ≠ [] ∧ d.take i ≠ "org".data

/-- The prefix handling of `from_github_url`, worded from the claim: the
path is what remains after the `https` prefix strips, or — when it does
not — after the `http` prefix strips. -/
def GithubPrefStrip (url p : Str) : Prop :=
  stripPref "https://github.com/".data url = some p ∨
    (stripPref "https://github.com/".data url = none ∧
     stripPref "http://github.com/".data url = some p)

/-- C7's acceptance condition, worded from the claim: a github.com URL
whose remaining path — trailing slashes ignored — consists of exactly
one or exactly two non-empty segments. -/
def GithubUrlSpec (url : Str) : Prop :=
  ∃ p, GithubPrefStrip url p ∧
    ((∃ a, splitAll '/' (dropTrailing '/' p) = [a] ∧ a ≠ []) ∨
     (∃ a b, splitAll '/' (dropTrailing '/' p) = [a, b] ∧ a ≠ [] ∧ b ≠ []))

/-! ### Helper lemmas -/

theorem stripPref_append (p r : Str) : stripPref p (p ++ r) = some r := by
  have h : p.isPrefixOf (p ++ r) = true := by
    rw [ List.isPrefixOf_iff_prefix]; exact List.prefix_append p r
  simp [stripPref, h]

theorem slicePrefBytes_byteLen {s : Str} {n : Nat} {out : Str}
    (h : slicePrefBytes s n = some out) : byteLen out = n := by
  induction s generalizing n out with
  | nil =>
    cases n with
    | zero => simp [slicePrefBytes] at h; simp [h, byteLen]
    | succ k => simp [slicePrefBytes] at h
  | cons c cs ih =>
    cases n with
    | zero => simp [slicePrefBytes] at h; simp [h, byteLen]
    | succ k =>
      unfold slicePrefBytes at h
      by_cases hc : c.utf8Size ≤ k + 1
      · rw [if_pos hc] at h
        cases hrec : slicePrefBytes cs (k + 1 - c.utf8Size) with
        | none => rw [hrec] at h; simp at h
        | some rest =>
          rw [hrec] at h
          simp only [Option.map_some', Option.some.injEq] at h
          subst h
          have hrest := ih hrec
          simp only [byteLen, List.map_cons, List.sum_cons] at hrest ⊢
          omega
      · rw [if_neg hc] at h; simp at h

theorem slicePrefBytes_ascii {s : Str} (hascii : ∀ c ∈ s, c.utf8Size = 1)
    {n : Nat} (hn : n ≤ s.length) : slicePrefBytes s n = some (s.take n) := by
  induction s generalizing n with
  | nil =>
    have : n = 0 := by simpa using hn
    simp [this, slicePrefBytes]
  | cons c cs ih =>
    cases n with
    | zero => simp [slicePrefBytes]
    | succ k =>
      have hc : c.utf8Size = 1 := hascii c (by simp)
      have hk : k ≤ cs.length := by simpa using hn
      unfold slicePrefBytes
      rw [if_pos (by omega)]
      rw [hc]
      simp only [Nat.add_sub_cancel]
      rw [ih (fun x hx => hascii x (by simp [hx])) hk]
      simp

theorem byteLen_eq_length_of_ascii {s : Str} (hascii : ∀ c ∈ s, c.utf8Size = 1) :
    byteLen s = s.length := by
  induction s with
  | nil => simp [byteLen]
  | cons c cs ih =>
    have hc : c.utf8Size = 1 := hascii c (by simp)
    have ht := ih (fun x hx => hascii x (by simp [hx]))
    simp only [byteLen, List.map_cons, List.sum_cons, List.length_cons, hc] at ht ⊢
    omega

theorem splitAll_append_sep {sep : Char} {xs : Str} (h : sep ∉ xs) (rest : Str) :
    splitAll sep (xs ++ sep :: rest) = xs :: splitAll sep rest := by
  induction xs with
  | nil => simp [splitAll]
  | cons x t ih =>
    have hx : x ≠ sep := fun he => h (by simp [he])
    have ht : sep ∉ t := fun he => h (by simp [he])
    rw [List.cons_append, splitAll, if_neg hx, ih ht]

/-! ### C5: `add_runner` fails fast when the instance directory exists -/

/-- C5: when the instance directory for the scope already exists,
`add_runner` fails immediately with an empty effect trace — no
registration-token request to the GitHub client and no external command
is issued, so the local state is untouched on this error path. -/
theorem c5_add_fails_fast_when_dir_exists (env : AddEnv) (config : Config)
    (scope : RunnerScope) (labels : Str) (h : env.dirExists = true) :
    add_runner env config scope labels = (.failure alreadyConfiguredMsg, []) := by
  simp [add_runner, h, alreadyConfiguredMsg]

/-- C5 witness: a concrete environment whose instance directory exists. -/
theorem c5_add_fails_fast_witness :
    ({ dirExists := true, hostname := none, regTokenResult := .ok "tok".data,
       cmdOk := fun _ _ => true } : AddEnv).dirExists = true ∧
    add_runner
      { dirExists := true, hostname := none, regTokenResult := .ok "tok".data,
        cmdOk := fun _ _ => true }
      { instances_base := "/opt/rm".data, runner_user := "runner".data,
        github_pat := "pat".data }
      (.Repository "a".data "b".data) "ci".data = (.failure alreadyConfiguredMsg, []) :=
  ⟨rfl, c5_add_fails_fast_when_dir_exists _ _ _ _ rfl⟩

/-! ### C9: label normalization -/

/-- C9 counterexample: a labels string that contains `self-hosted` only
as a proper substring is left unchanged, and the resulting comma-split
label list does not include `self-hosted` as a label — refuting the
claim that the labels used for registration always contain `self-hosted`
as a label. -/
theorem c9_counterexample :
    normalize_labels "my-self-hosted-box".data = "my-self-hosted-box".data ∧
    "self-hosted".data ∉ splitAll ',' (normalize_labels "my-self-hosted-box".data) := by
  decide

/-- C9 (amended): `add_runner` checks substring containment, not label
membership: when the labels string does not contain `self-hosted` as a
substring, `self-hosted,` is prepended (and `self-hosted` then occurs as
a label of the comma-split list); when the substring is already present
anywhere, the labels are used unchanged. -/
theorem c9_labels_amended (labels : Str) :
    (containsSS "self-hosted".data labels = false →
      normalize_labels labels = "self-hosted,".data ++ labels ∧
      "self-hosted".data ∈ splitAll ',' (normalize_labels labels)) ∧
    (containsSS "self-hosted".data labels = true → normalize_labels labels = labels) := by
  constructor
  · intro h
    have hn : normalize_labels labels = "self-hosted,".data ++ labels := by
      simp [normalize_labels, h]
    refine ⟨hn, ?_⟩
    rw [hn]
    have hcomma : ',' ∉ "self-hosted".data := by decide
    have : ("self-hosted,".data : Str) ++ labels = "self-hosted".data ++ ',' :: labels := rfl
    rw [this, splitAll_append_sep hcomma]
    simp
  · intro h
    simp [normalize_labels, h]

/-- C9 witness: labels without the substring get `self-hosted,` prepended. -/
theorem c9_labels_witness :
    containsSS "self-hosted".data "gpu".data = false ∧
    normalize_labels "gpu".data = "self-hosted,".data ++ "gpu".data ∧
    "self-hosted".data ∈ splitAll ',' (normalize_labels "gpu".data) :=
  ⟨by decide, ((c9_labels_amended "gpu".data).1 (by decide)).1,
    ((c9_labels_amended "gpu".data).1 (by decide)).2⟩

/-! ### C10: BOM stripping in `.runner` parsing -/

/-- C10: for content that does not itself begin with a byte-order mark
(valid JSON never does), parsing a BOM-prefixed `.runner` file gives
exactly the same result as parsing the bare content — the file is
accepted rather than rejected as malformed JSON.  The external
`serde_json` collaborator is abstracted by `jsonGitHubUrl`. -/
theorem c10_bom_transparent (jsonGitHubUrl : Str → Option (Option Str)) (content : Str)
    (hhead : content.head? ≠ some '\uFEFF') :
    parse_scope_from_runner_config jsonGitHubUrl ('\uFEFF' :: content) =
      parse_scope_from_runner_config jsonGitHubUrl content := by
  have hstrip : strip_bom ('\uFEFF' :: content) = content := by
    simp [strip_bom]
  have hid : strip_bom content = content := by
    cases content with
    | nil => rfl
    | cons c rest =>
      have : c ≠ '\uFEFF' := by
        intro he; exact hhead (by simp [he])
      simp [strip_bom, this]
  unfold parse_scope_from_runner_config
  rw [hstrip, hid]

/-- C10 witness: a BOM-prefixed document parses to the same repository
scope as the bare document. -/
theorem c10_bom_witness :
    ("j".data : Str).head? ≠ some '\uFEFF' ∧
    parse_scope_from_runner_config c10Json ('\uFEFF' :: "j".data) =
      parse_scope_from_runner_config c10Json "j".data ∧
    parse_scope_from_runner_config c10Json "j".data =
      .ok (.Repository "a".data "b".data) :=
  ⟨by decide, c10_bom_transparent c10Json "j".data (by decide), by decide⟩

/-! ### C2: `RunnerScope::parse` -/

/-- C2 counterexample: an identifier with two slashes is accepted —
`splitn(2, '/')` keeps everything after the first slash as the repo —
whereas the claim says any input with more than one `/` is an error. -/
theorem c2_counterexample :
    RunnerScope.parse "a/b/c".data = .ok (.Repository "a".data "b/c".data) := by
  decide

/-- C2 (amended): `parse` accepts `org:name` (name non-empty, no slash)
as an organization, and otherwise accepts any identifier containing a
slash whose text before the first slash and remainder after it are
non-empty, taking the whole remainder — further slashes included — as
the repo; every identifier outside these shapes is an error. -/
theorem takeWhile_append_first_sep {a : Str} (b : Str) (h : '/' ∉ a) :
    (a ++ '/' :: b).takeWhile (· != '/') = a := by
  induction a with
  | nil => simp [List.takeWhile]
  | cons x t ih =>
    have hx : x ≠ '/' := fun he => h (by simp [he])
    have ht : '/' ∉ t := fun he => h (by simp [he])
    simpa [List.takeWhile_cons, hx] using ih ht

theorem dropWhile_append_first_sep {a : Str} (b : Str) (h : '/' ∉ a) :
    (a ++ '/' :: b).dropWhile (· != '/') = '/' :: b := by
  induction a with
  | nil => simp [List.dropWhile]
  | cons x t ih =>
    have hx : x ≠ '/' := fun he => h (by simp [he])
    have ht : '/' ∉ t := fun he => h (by simp [he])
    simpa [List.dropWhile_cons, hx] using ih ht

theorem mem_split_first_sep {l : Str} (h : '/' ∈ l) :
    ∃ rest, l.dropWhile (· != '/') = '/' :: rest := by
  induction l with
  | nil => simp at h
  | cons c t ih =>
    by_cases hc : c = '/'
    · exact ⟨t, by simp [List.dropWhile_cons, hc]⟩
    · have ht : '/' ∈ t := by
        rcases List.mem_cons.mp h with h1 | h1
        · exact absurd h1.symm hc
        · exact h1
      rcases ih ht with ⟨rest, hrest⟩
      exact ⟨rest, by simp [List.dropWhile_cons, hc, hrest]⟩

/-- C2 (amended): `parse` accepts `org:name` (name non-empty, no slash)
as an organization, and otherwise accepts any identifier containing a
slash whose text before the first slash and remainder after it are
non-empty, taking the whole remainder — further slashes included — as
the repo; every identifier outside these shapes is an error. -/
theorem c2_parse_amended :
    (∀ identifier name, stripPref "org:".data identifier = some name → name ≠ [] →
      '/' ∉ name → RunnerScope.parse identifier = .ok (.Organization name)) ∧
    (∀ a b, '/' ∉ a → a ≠ [] → b ≠ [] →
      stripPref "org:".data (a ++ '/' :: b) = none →
      RunnerScope.parse (a ++ '/' :: b) = .ok (.Repository a b)) ∧
    (∀ identifier, ¬ ParseSpecAmended identifier →
      ∃ e, RunnerScope.parse identifier = .error e) := by
  refine ⟨?_, ?_, ?_⟩
  · intro identifier name hs hne hnosl
    simp [RunnerScope.parse, hs, hne, hnosl]
  · intro a b hnosl ha hb hs
    have hmem : '/' ∈ a ++ '/' :: b := by simp
    simp only [RunnerScope.parse, hs, hmem, if_true,
      takeWhile_append_first_sep b hnosl, dropWhile_append_first_sep b hnosl]
    simp [ha, hb]
  · intro identifier hspec
    unfold RunnerScope.parse
    cases hs : stripPref "org:".data identifier with
    | some name =>
      by_cases hne : name = []
      · exact ⟨"Organization name cannot be empty", by simp [hne]⟩
      · by_cases hsl : '/' ∈ name
        · exact ⟨"Organization name cannot contain a slash", by simp [hne, hsl]⟩
        · exact absurd (Or.inl ⟨name, hs, hne, hsl⟩) hspec
    | none =>
      by_cases hmem : '/' ∈ identifier
      · rcases mem_split_first_sep hmem with ⟨rest, hrest⟩
        have hsplit : identifier = identifier.takeWhile (· != '/') ++ '/' :: rest := by
          conv_lhs => rw [← List.takeWhile_append_dropWhile (p := (· != '/')) (l := identifier)]
          rw [hrest]
        have hnosl : '/' ∉ identifier.takeWhile (· != '/') := by
          intro hin
          have := List.mem_takeWhile_imp hin
          simp at this
        by_cases hown : identifier.takeWhile (· != '/') = []
        · exact ⟨"Repository must be in owner/repo format", by simp [hmem, hown]⟩
        · by_cases hrepo : (identifier.dropWhile (· != '/')).drop 1 = []
          · exact ⟨"Repository must be in owner/repo format", by simp [hmem, hrepo]⟩
          · have hrestne : rest ≠ [] := by
              intro he
              exact hrepo (by simp [hrest, he])
            exact absurd (Or.inr ⟨hs, identifier.takeWhile (· != '/'), rest,
              hsplit, hnosl, hown, hrestne⟩) hspec
      · exact ⟨"Invalid identifier: use owner/repo for repositories or org:name for organizations",
          by simp [hmem]⟩

/-- C2 witness: both accepted shapes at concrete identifiers. -/
theorem c2_parse_witness :
    RunnerScope.parse "owner/repo".data = .ok (.Repository "owner".data "repo".data) ∧
    RunnerScope.parse "org:myorg".data = .ok (.Organization "myorg".data) :=
  ⟨c2_parse_amended.2.1 "owner".data "repo".data (by decide) (by decide) (by decide)
      (by decide),
    c2_parse_amended.1 "org:myorg".data "myorg".data (by decide) (by decide) (by decide)⟩

/-! ### C6: runner display name truncation -/

/-- C6 counterexample: the slice `&runner_name[..runner_name.len().min(64)]`
is not total — for this hostname/scope combination byte index 64 is not a
character boundary, so the Rust code panics (`none` in the model),
refuting the claim that the truncation never fails. -/
theorem c6_counterexample :
    truncate64 (rawRunnerName c6Hostname (.Repository "a".data "b".data)) = none := by
  decide

/-- C6 (amended): the name `add_runner` registers is
`{hostname}-{scope.to_dir_name()}` truncated to at most 64 bytes, not
characters: whenever the byte slice succeeds its result occupies at most
64 UTF-8 bytes, and only when the name is pure ASCII is the truncation
total and equal to the first 64 characters of the name. -/
theorem c6_runner_name_amended (hostname : Str) (scope : RunnerScope) :
    (∀ out, truncate64 (rawRunnerName hostname scope) = some out → byteLen out ≤ 64) ∧
    ((∀ c ∈ rawRunnerName hostname scope, c.utf8Size = 1) →
      truncate64 (rawRunnerName hostname scope) =
        some ((rawRunnerName hostname scope).take 64)) := by
  constructor
  · intro out h
    have hb := slicePrefBytes_byteLen h
    rw [hb]
    exact Nat.min_le_right _ _
  · intro hascii
    have hlen := byteLen_eq_length_of_ascii hascii
    unfold truncate64
    rw [hlen]
    rw [slicePrefBytes_ascii hascii (Nat.min_le_left _ _)]
    by_cases h64 : (rawRunnerName hostname scope).length ≤ 64
    · rw [Nat.min_eq_left h64, List.take_length, List.take_of_length_le h64]
    · rw [Nat.min_eq_right (by omega)]

/-- C6 witness: an all-ASCII hostname and scope, where the truncation
succeeds and equals the 64-character prefix. -/
theorem c6_runner_name_witness :
    (∀ c ∈ rawRunnerName "host".data (.Repository "a".data "b".data), c.utf8Size = 1) ∧
    truncate64 (rawRunnerName "host".data (.Repository "a".data "b".data)) =
      some ((rawRunnerName "host".data (.Repository "a".data "b".data)).take 64) ∧
    truncate64 (rawRunnerName "host".data (.Repository "a".data "b".data)) =
      some "host-a__b".data :=
  ⟨by decide, (c6_runner_name_amended "host".data (.Repository "a".data "b".data)).2
      (by decide), by decide⟩

/-! ### C1: directory-name round trip -/

/-- C1 counterexample: `Repository{owner: "a_", repo: "b"}` is a valid
scope per the claim, but its directory name `a___b` decodes at the first
`__` — which starts inside the owner's trailing underscore — to
`Repository{"a", "_b"}`, so `from_dir_name` is not a left inverse of
`to_dir_name` on all valid scopes. -/
theorem c1_counterexample :
    ValidScope (.Repository "a_".data "b".data) ∧
    RunnerScope.from_dir_name (RunnerScope.to_dir_name (.Repository "a_".data "b".data)) ≠
      some (.Repository "a_".data "b".data) := by
  exact ⟨by decide, by decide⟩

theorem findSS_at_sep (r o : Str) : o ≠ [] → hasDoubleUS o = false →
    o.getLast? ≠ some '_' →
    findSS "__".data (o ++ '_' :: '_' :: r) = some o.length := by
  induction o with
  | nil => intro ho _ _; exact absurd rfl ho
  | cons c t ih =>
    intro _ hd hl
    cases t with
    | nil =>
      have hc : ¬ ('_' = c) := by
        intro he; exact hl (by simp [← he])
      rw [List.cons_append, findSS, if_neg (by simp [List.isPrefixOf, hc])]
      rw [List.nil_append, findSS, if_pos (by simp [List.isPrefixOf])]
      rfl
    | cons c2 t2 =>
      simp only [hasDoubleUS, Bool.or_eq_false_iff, Bool.and_eq_false_iff,
        decide_eq_false_iff_not] at hd
      have hl2 : (c2 :: t2).getLast? ≠ some '_' := by
        rwa [List.getLast?_cons_cons] at hl
      have hrec := ih (by simp) hd.2 hl2
      have hpre : ("__".data).isPrefixOf (c :: c2 :: (t2 ++ '_' :: '_' :: r)) = false := by
        simp only [List.isPrefixOf]
        simp only [Bool.and_eq_false_iff, beq_eq_false_iff_ne, ne_eq]
        rcases hd.1 with h1 | h1
        · exact Or.inl (fun he => h1 he.symm)
        · exact Or.inr (Or.inl (fun he => h1 he.symm))
      rw [List.cons_append, findSS, if_neg (by simp [hpre])]
      rw [hrec]
      rfl

theorem stripPref_org_none (r o : Str) (horg : o ≠ "org".data) (ho : o ≠ [])
    (hd : hasDoubleUS o = false) (hl : o.getLast? ≠ some '_') :
    stripPref "org__".data (o ++ '_' :: '_' :: r) = none := by
  have hpre : ("org__".data).isPrefixOf (o ++ '_' :: '_' :: r) = false := by
    match o with
    | [] => exact absurd rfl ho
    | [a] => simp [List.isPrefixOf]
    | [a, b] => simp [List.isPrefixOf]
    | [a, b, c] =>
      by_contra hb
      rw [Bool.not_eq_false] at hb
      simp only [List.cons_append, List.nil_append, List.isPrefixOf, Bool.and_eq_true,
        beq_iff_eq] at hb
      exact horg (by simp [← hb.1, ← hb.2.1, ← hb.2.2.1])
    | [a, b, c, d] =>
      by_contra hb
      rw [Bool.not_eq_false] at hb
      simp only [List.cons_append, List.nil_append, List.isPrefixOf, Bool.and_eq_true,
        beq_iff_eq] at hb
      exact hl (by simp [← hb.2.2.2.1])
    | a :: b :: c :: d :: e :: o5 =>
      by_contra hb
      rw [Bool.not_eq_false] at hb
      simp only [List.cons_append, List.isPrefixOf, Bool.and_eq_true, beq_iff_eq] at hb
      rw [← hb.2.2.2.1, ← hb.2.2.2.2.1] at hd
      simp [hasDoubleUS] at hd
  simp [stripPref, hpre]

theorem from_dir_name_of_orgStrip_none {d : Str}
    (h : stripPref "org__".data d = none) :
    RunnerScope.from_dir_name d = RunnerScope.fromDirRepo d := by
  unfold RunnerScope.from_dir_name
  rw [h]

theorem from_dir_name_of_orgStrip_some {d g : Str}
    (h : stripPref "org__".data d = some g) (hg : g ≠ []) :
    RunnerScope.from_dir_name d = some (.Organization g) := by
  unfold RunnerScope.from_dir_name
  rw [h]
  simp [hg]

theorem fromDirRepo_of_findSS {d : Str} {i : Nat} (h : findSS "__".data d = some i) :
    RunnerScope.fromDirRepo d =
      if d.take i ≠ [] ∧ d.drop (i + 2) ≠ [] ∧ d.take i ≠ "org".data then
        some (.Repository (d.take i) (d.drop (i + 2)))
      else none := by
  unfold RunnerScope.fromDirRepo
  rw [h]

/-- C1 (amended): the round trip
`from_dir_name(to_dir_name(s)) = Some(s)` holds for every valid
organization scope, and for valid repository scopes whose owner
additionally contains no `__` and does not end with `_`; the
counterexample shows the extra owner condition is necessary, since the
decoder splits at the first `__` of the directory name. -/
theorem c1_roundtrip_amended (s : RunnerScope) (hv : ValidScope s)
    (ha : ∀ owner repo, s = .Repository owner repo →
      hasDoubleUS owner = false ∧ owner.getLast? ≠ some '_') :
    RunnerScope.from_dir_name s.to_dir_name = some s := by
  cases s with
  | Organization org =>
    have hne : org ≠ [] := hv
    have h1 : RunnerScope.to_dir_name (.Organization org) = "org__".data ++ org := rfl
    rw [h1, from_dir_name_of_orgStrip_some (stripPref_append "org__".data org) hne]
  | Repository owner repo =>
    obtain ⟨ho, hr, _, _, horg⟩ := hv
    obtain ⟨hd, hl⟩ := ha owner repo rfl
    have hdir : RunnerScope.to_dir_name (.Repository owner repo) =
        owner ++ '_' :: '_' :: repo := by
      show (owner ++ "__".data) ++ repo = _
      rw [List.append_assoc]
      rfl
    rw [hdir,
      from_dir_name_of_orgStrip_none (stripPref_org_none repo owner horg ho hd hl),
      fromDirRepo_of_findSS (findSS_at_sep repo owner ho hd hl)]
    have htake : (owner ++ '_' :: '_' :: repo).take owner.length = owner :=
      List.take_left owner _
    have hdrop : (owner ++ '_' :: '_' :: repo).drop (owner.length + 2) = repo := by
      rw [← List.drop_drop, List.drop_left]
      rfl
    rw [htake, hdrop]
    simp [ho, hr, horg]

/-- C1 witness: a concrete valid repository scope satisfying the amended
owner condition round-trips. -/
theorem c1_roundtrip_witness :
    ValidScope (.Repository "a".data "b".data) ∧
    RunnerScope.from_dir_name (RunnerScope.to_dir_name (.Repository "a".data "b".data)) =
      some (.Repository "a".data "b".data) :=
  ⟨by decide, c1_roundtrip_amended (.Repository "a".data "b".data) (by decide)
    (by intro o r h; cases h; exact ⟨by decide, by decide⟩)⟩

/-! ### C4: success rate recomputed from counts -/

theorem get_scope_metrics_total (runs : List StoredWorkflowRun)
    (snaps : List RunnerSnapshotRow) (scope : RunnerScope) (days now : Int) :
    (get_scope_metrics runs snaps scope days now).total_runs =
      (get_run_counts runs scope.to_display (now - days * 86400)).1 := by
  simp only [get_scope_metrics, ScopeMetrics.calculate_success_rate]
  split <;> (try split) <;> (try split) <;> rfl

theorem get_scope_metrics_successful (runs : List StoredWorkflowRun)
    (snaps : List RunnerSnapshotRow) (scope : RunnerScope) (days now : Int) :
    (get_scope_metrics runs snaps scope days now).successful_runs =
      (get_run_counts runs scope.to_display (now - days * 86400)).2.1 := by
  simp only [get_scope_metrics, ScopeMetrics.calculate_success_rate]
  split <;> (try split) <;> (try split) <;> rfl

theorem get_scope_metrics_rate_pos (runs : List StoredWorkflowRun)
    (snaps : List RunnerSnapshotRow) (scope : RunnerScope) (days now : Int)
    (h : 0 < (get_run_counts runs scope.to_display (now - days * 86400)).1) :
    (get_scope_metrics runs snaps scope days now).success_rate =
      ((get_run_counts runs scope.to_display (now - days * 86400)).2.1 : ℚ) /
        ((get_run_counts runs scope.to_display (now - days * 86400)).1 : ℚ) * 100 := by
  simp only [get_scope_metrics, ScopeMetrics.calculate_success_rate]
  split <;> (try split) <;> (try split) <;>
    first
      | rfl
      | exact absurd h (by assumption)

theorem get_scope_metrics_rate_zero (runs : List StoredWorkflowRun)
    (snaps : List RunnerSnapshotRow) (scope : RunnerScope) (days now : Int)
    (h : (get_run_counts runs scope.to_display (now - days * 86400)).1 = 0) :
    (get_scope_metrics runs snaps scope days now).success_rate = 0 := by
  simp only [get_scope_metrics, ScopeMetrics.calculate_success_rate]
  split <;> (try split) <;> (try split) <;>
    first
      | rfl
      | (rename_i hpos; rw [h] at hpos; exact absurd hpos (by omega))

theorem i64_as_u32_le_of_le {s t : Nat} (hst : s ≤ t) (ht : t < 2 ^ 32) :
    i64_as_u32 (s : Int) ≤ i64_as_u32 (t : Int) := by
  unfold i64_as_u32
  omega

theorem get_run_counts_successful_le_total (runs : List StoredWorkflowRun)
    (sid : Str) (cutoff : Int)
    (h : (runs.filter (inWindow sid cutoff)).length < 2 ^ 32) :
    (get_run_counts runs sid cutoff).2.1 ≤ (get_run_counts runs sid cutoff).1 := by
  have hs := List.length_filter_le (fun r => r.conclusion == some "success".data)
    (runs.filter (inWindow sid cutoff))
  exact i64_as_u32_le_of_le hs h

/-- C4 counterexample: at a window holding `2^32 + 1` completed rows of
which 5 are successful, the `i64 as u32` cast of the SQL counts
(`db.rs:241-243`) wraps `total_runs` to 1 while `successful_runs` stays
5, so the produced `ScopeMetrics` has `successful_runs > total_runs` and
`success_rate = 500`, refuting the claim that the rate always lies in
`[0, 100]`. -/
theorem c4_counterexample :
    (get_scope_metrics c4BigRuns [] (.Repository "a".data "b".data) 7 0).total_runs <
      (get_scope_metrics c4BigRuns [] (.Repository "a".data "b".data) 7 0).successful_runs ∧
    100 < (get_scope_metrics c4BigRuns [] (.Repository "a".data "b".data) 7 0).success_rate := by
  have hW1 : inWindow (RunnerScope.to_display (.Repository "a".data "b".data))
      ((0 : Int) - 7 * 86400) c4SuccessRow = true := by decide
  have hW2 : inWindow (RunnerScope.to_display (.Repository "a".data "b".data))
      ((0 : Int) - 7 * 86400) c4OtherRow = true := by decide
  have hS1 : (c4SuccessRow.conclusion == some "success".data) = true := by decide
  have hS2 : (c4OtherRow.conclusion == some "success".data) = false := by decide
  have hF1 : (c4SuccessRow.conclusion == some "failure".data) = false := by decide
  have hF2 : (c4OtherRow.conclusion == some "failure".data) = false := by decide
  have hcounts : get_run_counts c4BigRuns
      (RunnerScope.to_display (.Repository "a".data "b".data))
      ((0 : Int) - 7 * 86400) = (1, 5, 0) := by
    simp only [get_run_counts, c4BigRuns, List.filter_append, List.filter_replicate,
      hW1, hW2, hS1, hS2, hF1, hF2, if_true, if_false, List.append_nil, List.nil_append,
      List.length_append, List.length_replicate, List.length_nil, i64_as_u32]
    norm_num
    all_goals decide
  have htot := get_scope_metrics_total c4BigRuns [] (.Repository "a".data "b".data) 7 0
  have hsuc := get_scope_metrics_successful c4BigRuns [] (.Repository "a".data "b".data) 7 0
  rw [hcounts] at htot hsuc
  have hrate := get_scope_metrics_rate_pos c4BigRuns [] (.Repository "a".data "b".data) 7 0
    (by rw [hcounts]; norm_num)
  rw [hcounts] at hrate
  simp at htot hsuc hrate
  constructor
  · rw [htot, hsuc]
    norm_num
  · rw [hrate]
    norm_num

/-- C4 (amended): every `ScopeMetrics` produced by `get_scope_metrics`
has its success rate recomputed from the stored count fields — equal to
`100 * successful_runs / total_runs` when `total_runs > 0` and to `0`
when `total_runs = 0` — and the rate is never negative.  Because the SQL
counts pass through an `i64 as u32` wrapping cast, the bounds
`successful_runs ≤ total_runs` and `success_rate ≤ 100` additionally
require the window to hold fewer than `2^32` completed rows (no wrap);
the counterexample shows both bounds fail once the total wraps. -/
theorem c4_success_rate_invariant (runs : List StoredWorkflowRun)
    (snaps : List RunnerSnapshotRow) (scope : RunnerScope) (days now : Int) :
    (0 < (get_scope_metrics runs snaps scope days now).total_runs →
      (get_scope_metrics runs snaps scope days now).success_rate =
        100 * ((get_scope_metrics runs snaps scope days now).successful_runs : ℚ) /
          ((get_scope_metrics runs snaps scope days now).total_runs : ℚ)) ∧
    ((get_scope_metrics runs snaps scope days now).total_runs = 0 →
      (get_scope_metrics runs snaps scope days now).success_rate = 0) ∧
    0 ≤ (get_scope_metrics runs snaps scope days now).success_rate ∧
    ((runs.filter (inWindow scope.to_display (now - days * 86400))).length < 2 ^ 32 →
      (get_scope_metrics runs snaps scope days now).successful_runs ≤
        (get_scope_metrics runs snaps scope days now).total_runs ∧
      (get_scope_metrics runs snaps scope days now).success_rate ≤ 100) := by
  have htot := get_scope_metrics_total runs snaps scope days now
  have hsuc := get_scope_metrics_successful runs snaps scope days now
  by_cases hpos : 0 < (get_run_counts runs scope.to_display (now - days * 86400)).1
  · have hrate := get_scope_metrics_rate_pos runs snaps scope days now hpos
    have ht : (0 : ℚ) < ((get_run_counts runs scope.to_display (now - days * 86400)).1 : ℚ) := by
      exact_mod_cast hpos
    refine ⟨?_, ?_, ?_, ?_⟩
    · intro _
      rw [hrate, htot, hsuc]
      ring
    · intro hzero
      rw [htot] at hzero
      omega
    · rw [hrate]; positivity
    · intro hlen
      have hle := get_run_counts_successful_le_total runs scope.to_display
        (now - days * 86400) hlen
      have hq : ((get_run_counts runs scope.to_display (now - days * 86400)).2.1 : ℚ) /
          ((get_run_counts runs scope.to_display (now - days * 86400)).1 : ℚ) ≤ 1 := by
        rw [div_le_one ht]
        exact_mod_cast hle
      refine ⟨?_, ?_⟩
      · rw [htot, hsuc]; exact hle
      · rw [hrate]
        calc ((get_run_counts runs scope.to_display (now - days * 86400)).2.1 : ℚ) /
              ((get_run_counts runs scope.to_display (now - days * 86400)).1 : ℚ) * 100
            ≤ 1 * 100 := by
              apply mul_le_mul_of_nonneg_right hq
              norm_num
          _ = 100 := by norm_num
  · have hzero : (get_run_counts runs scope.to_display (now - days * 86400)).1 = 0 := by omega
    have hrate := get_scope_metrics_rate_zero runs snaps scope days now hzero
    refine ⟨?_, ?_, ?_, ?_⟩
    · intro hp
      rw [htot] at hp
      omega
    · intro _
      exact hrate
    · rw [hrate]
    · intro hlen
      have hle := get_run_counts_successful_le_total runs scope.to_display
        (now - days * 86400) hlen
      refine ⟨?_, ?_⟩
      · rw [htot, hsuc]; exact hle
      · rw [hrate]; norm_num

/-- C4 witness: a concrete one-run window, below the wrap bound, whose
success rate is `100 * successful / total` and within `[0, 100]`. -/
theorem c4_success_rate_witness :
    0 < (get_scope_metrics c4Runs [] (.Repository "a".data "b".data) 7 0).total_runs ∧
    (get_scope_metrics c4Runs [] (.Repository "a".data "b".data) 7 0).success_rate =
      100 * ((get_scope_metrics c4Runs [] (.Repository "a".data "b".data) 7 0).successful_runs : ℚ) /
        ((get_scope_metrics c4Runs [] (.Repository "a".data "b".data) 7 0).total_runs : ℚ) ∧
    (c4Runs.filter (inWindow (RunnerScope.to_display (.Repository "a".data "b".data))
      ((0 : Int) - 7 * 86400))).length < 2 ^ 32 ∧
    (get_scope_metrics c4Runs [] (.Repository "a".data "b".data) 7 0).successful_runs ≤
      (get_scope_metrics c4Runs [] (.Repository "a".data "b".data) 7 0).total_runs ∧
    (get_scope_metrics c4Runs [] (.Repository "a".data "b".data) 7 0).success_rate ≤ 100 :=
  ⟨by decide,
   (c4_success_rate_invariant c4Runs [] (.Repository "a".data "b".data) 7 0).1 (by decide),
   by decide,
   ((c4_success_rate_invariant c4Runs [] (.Repository "a".data "b".data) 7 0).2.2.2
     (by decide)).1,
   ((c4_success_rate_invariant c4Runs [] (.Repository "a".data "b".data) 7 0).2.2.2
     (by decide)).2⟩

/-! ### C3: trend computation -/

/-- C3: `calculate_trend` is `Stable` when the absolute difference is
below the 0.05 threshold, `Up` when the difference is at least 0.05
(which forces current above previous), `Down` when it is at most −0.05;
the duration trend of `get_scope_metrics` calls `calculate_trend` with
the two averages swapped, so a lower current duration counts as `Up`;
and the claim's three concrete examples evaluate as stated. -/
theorem c3_trend_rule :
    (∀ current previous : ℚ, |current - previous| < 5 / 100 →
      calculate_trend current previous = .Stable) ∧
    (∀ current previous : ℚ, 5 / 100 ≤ current - previous →
      calculate_trend current previous = .Up ∧ previous < current) ∧
    (∀ current previous : ℚ, current - previous ≤ -(5 / 100) →
      calculate_trend current previous = .Down) ∧
    (∀ currentAvg prevAvg : ℚ, currentAvg + 5 / 100 ≤ prevAvg →
      calculate_trend prevAvg currentAvg = .Up) ∧
    (∀ runs snaps scope days now (currentAvg prevAvg : Nat),
      (get_duration_stats runs (RunnerScope.to_display scope) (now - days * 86400)).1 =
        some currentAvg →
      (get_duration_stats_range runs (RunnerScope.to_display scope) (now - days * 2 * 86400)
        (now - days * 86400)).1 = some prevAvg →
      (get_scope_metrics runs snaps scope days now).duration_trend =
        some (calculate_trend (prevAvg : ℚ) (currentAvg : ℚ))) ∧
    calculate_trend 1 (9 / 10) = .Up ∧
    calculate_trend (8 / 10) (9 / 10) = .Down ∧
    calculate_trend (92 / 100) (9 / 10) = .Stable := by
  have hup : ∀ current previous : ℚ, 5 / 100 ≤ current - previous →
      calculate_trend current previous = .Up ∧ previous < current := by
    intro c p h
    have habs : ¬ |c - p| < 5 / 100 := not_lt.mpr (le_trans h (le_abs_self _))
    have hpos : (0 : ℚ) < c - p := lt_of_lt_of_le (by norm_num) h
    constructor
    · simp only [calculate_trend]
      rw [if_neg habs, if_pos hpos]
    · linarith
  refine ⟨?_, hup, ?_, ?_, ?_, ?_, ?_, ?_⟩
  · intro c p h
    simp only [calculate_trend]
    rw [if_pos h]
  · intro c p h
    have habs : ¬ |c - p| < 5 / 100 := by
      rw [not_lt]
      calc (5 : ℚ) / 100 ≤ -(c - p) := by linarith
        _ ≤ |c - p| := neg_le_abs _
    have hneg : ¬ (0 : ℚ) < c - p := by
      rw [not_lt]; linarith
    simp only [calculate_trend]
    rw [if_neg habs, if_neg hneg]
  · intro ca pa h
    exact (hup pa ca (by linarith)).1
  · intro runs snaps scope days now ca pa hca hpa
    simp only [get_scope_metrics]
    rw [hca, hpa]
  · exact (hup 1 (9 / 10) (by norm_num)).1
  · have hd : (8 : ℚ) / 10 - 9 / 10 = -(1 / 10) := by norm_num
    have habs : ¬ |(8 : ℚ) / 10 - 9 / 10| < 5 / 100 := by
      rw [not_lt, hd, abs_neg, abs_of_nonneg (by norm_num : (0 : ℚ) ≤ 1 / 10)]
      norm_num
    have hneg : ¬ ((8 : ℚ) / 10 - 9 / 10 > 0) := by rw [hd]; norm_num
    simp only [calculate_trend]
    rw [if_neg habs, if_neg hneg]
  · have hd : (92 : ℚ) / 100 - 9 / 10 = 2 / 100 := by norm_num
    have habs : |(92 : ℚ) / 100 - 9 / 10| < 5 / 100 := by
      rw [hd, abs_of_nonneg (by norm_num : (0 : ℚ) ≤ 2 / 100)]
      norm_num
    simp only [calculate_trend]
    rw [if_pos habs]

theorem f64_as_u32_natCast (n : Nat) (h : n ≤ 2 ^ 32 - 1) :
    f64_as_u32 ((n : Nat) : ℚ) = n := by
  unfold f64_as_u32
  rcases Nat.eq_zero_or_pos n with h0 | h0
  · subst h0
    norm_num
  · have hq : ¬ ((n : ℚ) ≤ 0) := by
      rw [not_le]
      exact_mod_cast h0
    rw [if_neg hq, Int.floor_natCast, Int.toNat_natCast]
    exact min_eq_left h

theorem c3_cur_avg :
    (get_duration_stats c3Runs (RunnerScope.to_display (.Repository "a".data "b".data))
      ((1000000 : Int) - 7 * 86400)).1 = some 100 := by
  have hds : (c3Runs.filter (inWindow (RunnerScope.to_display (.Repository "a".data "b".data))
      ((1000000 : Int) - 7 * 86400))).filterMap (fun r => r.duration_seconds) =
        [(100 : Int)] := by decide
  have h100 : f64_as_u32 ((((100 : Int) : ℚ)) / (((1 : Nat)) : ℚ)) = 100 := by
    have hq : ((((100 : Int) : ℚ)) / (((1 : Nat)) : ℚ)) = ((100 : Nat) : ℚ) := by
      push_cast
      norm_num
    rw [hq, f64_as_u32_natCast 100 (by norm_num)]
  simp only [get_duration_stats, hds]
  simpa using h100

theorem c3_prev_avg :
    (get_duration_stats_range c3Runs (RunnerScope.to_display (.Repository "a".data "b".data))
      ((1000000 : Int) - 7 * 2 * 86400) ((1000000 : Int) - 7 * 86400)).1 = some 300 := by
  have hds : (c3Runs.filter (inRange (RunnerScope.to_display (.Repository "a".data "b".data))
      ((1000000 : Int) - 7 * 2 * 86400) ((1000000 : Int) - 7 * 86400))).filterMap
        (fun r => r.duration_seconds) = [(300 : Int)] := by decide
  have h300 : f64_as_u32 ((((300 : Int) : ℚ)) / (((1 : Nat)) : ℚ)) = 300 := by
    have hq : ((((300 : Int) : ℚ)) / (((1 : Nat)) : ℚ)) = ((300 : Nat) : ℚ) := by
      push_cast
      norm_num
    rw [hq, f64_as_u32_natCast 300 (by norm_num)]
  simp only [get_duration_stats_range, hds]
  simpa using h300

/-- C3 witness: the Stable example with its hypothesis, and a concrete
database whose lower current average duration yields an `Up` duration
trend through `get_scope_metrics`. -/
theorem c3_trend_witness :
    (|(92 : ℚ) / 100 - 9 / 10| < 5 / 100 ∧
      calculate_trend (92 / 100) (9 / 10) = .Stable) ∧
    ((get_duration_stats c3Runs (RunnerScope.to_display (.Repository "a".data "b".data))
        ((1000000 : Int) - 7 * 86400)).1 = some 100 ∧
     (get_duration_stats_range c3Runs (RunnerScope.to_display (.Repository "a".data "b".data))
        ((1000000 : Int) - 7 * 2 * 86400) ((1000000 : Int) - 7 * 86400)).1 = some 300 ∧
     (get_scope_metrics c3Runs [] (.Repository "a".data "b".data) 7 1000000).duration_trend =
       some (calculate_trend ((300 : Nat) : ℚ) ((100 : Nat) : ℚ)) ∧
     calculate_trend ((300 : Nat) : ℚ) ((100 : Nat) : ℚ) = .Up) := by
  constructor
  · constructor
    · have hd : (92 : ℚ) / 100 - 9 / 10 = 2 / 100 := by norm_num
      rw [hd, abs_of_nonneg (by norm_num : (0 : ℚ) ≤ 2 / 100)]
      norm_num
    · exact c3_trend_rule.2.2.2.2.2.2.2
  · refine ⟨c3_cur_avg, c3_prev_avg, ?_, ?_⟩
    · exact c3_trend_rule.2.2.2.2.1 c3Runs [] (.Repository "a".data "b".data) 7 1000000
        100 300 c3_cur_avg c3_prev_avg
    · refine (c3_trend_rule.2.1 ((300 : Nat) : ℚ) ((100 : Nat) : ℚ) ?_).1
      push_cast
      norm_num

/-! ### C8: `from_dir_name` totality and rejection -/

theorem fromDirRepo_of_findSS_none {d : Str} (h : findSS "__".data d = none) :
    RunnerScope.fromDirRepo d = none := by
  unfold RunnerScope.fromDirRepo
  rw [h]

theorem from_dir_name_of_orgStrip_some_empty {d : Str}
    (h : stripPref "org__".data d = some []) :
    RunnerScope.from_dir_name d = RunnerScope.fromDirRepo d := by
  unfold RunnerScope.from_dir_name
  rw [h]
  simp

theorem fromDirRepo_eq_none_iff (d : Str) :
    RunnerScope.fromDirRepo d = none ↔ ¬ RepoDirShapeSpec d := by
  unfold RepoDirShapeSpec
  cases h : findSS "__".data d with
  | none =>
    rw [fromDirRepo_of_findSS_none h]
    simp
  | some i =>
    rw [fromDirRepo_of_findSS h]
    by_cases hc : d.take i ≠ [] ∧ d.drop (i + 2) ≠ [] ∧ d.take i ≠ "org".data
    · rw [if_pos hc]
      constructor
      · intro hsome
        exact absurd hsome (by simp)
      · intro hn
        exact absurd ⟨i, rfl, hc⟩ hn
    · rw [if_neg hc]
      constructor
      · intro _
        rintro ⟨j, hj, hP⟩
        rw [Option.some.injEq] at hj
        subst hj
        exact hc hP
      · intro _
        rfl

theorem from_dir_name_eq_none_iff (d : Str) :
    RunnerScope.from_dir_name d = none ↔
      ¬ (OrgDirShapeSpec d ∨ RepoDirShapeSpec d) := by
  unfold OrgDirShapeSpec
  cases hs : stripPref "org__".data d with
  | none =>
    rw [from_dir_name_of_orgStrip_none hs, fromDirRepo_eq_none_iff]
    simp [hs]
  | some g =>
    by_cases hg : g = []
    · subst hg
      rw [from_dir_name_of_orgStrip_some_empty hs, fromDirRepo_eq_none_iff]
      simp [hs]
    · rw [from_dir_name_of_orgStrip_some hs hg]
      simp [hs, hg]

/-- C8: `from_dir_name` is a total function that returns `none` exactly
on the strings matching neither the `owner__repo` shape (both parts
around the first `__` non-empty, owner not literally `org`) nor the
`org__name` shape (name non-empty) — in particular on `org__` with its
empty name, on the degenerate `__`, and on the empty string. -/
theorem c8_from_dir_name_total :
    (∀ d, RunnerScope.from_dir_name d = none ↔
      ¬ (OrgDirShapeSpec d ∨ RepoDirShapeSpec d)) ∧
    RunnerScope.from_dir_name "org__".data = none ∧
    RunnerScope.from_dir_name "__".data = none ∧
    RunnerScope.from_dir_name ([] : Str) = none :=
  ⟨from_dir_name_eq_none_iff, by decide, by decide, by decide⟩

/-! ### C7: `from_github_url` -/

theorem from_github_url_strip {url p : Str} (h : GithubPrefStrip url p) :
    RunnerScope.from_github_url url =
      (match splitAll '/' (dropTrailing '/' p) with
      | [a] => if a ≠ [] then .ok (.Organization a)
               else .error "Cannot determine scope from URL"
      | [a, b] => if a ≠ [] ∧ b ≠ [] then .ok (.Repository a b)
                  else .error "Cannot determine scope from URL"
      | _ => .error "Cannot determine scope from URL") := by
  unfold RunnerScope.from_github_url
  rcases h with hs | ⟨hs1, hs2⟩
  · rw [hs]
    rfl
  · rw [hs1, hs2]
    rfl

theorem from_github_url_error_of_bad_path {url p : Str} (hps : GithubPrefStrip url p)
    (hbad : ¬ ((∃ a, splitAll '/' (dropTrailing '/' p) = [a] ∧ a ≠ []) ∨
       (∃ a b, splitAll '/' (dropTrailing '/' p) = [a, b] ∧ a ≠ [] ∧ b ≠ []))) :
    ∃ e, RunnerScope.from_github_url url = .error e := by
  rw [from_github_url_strip hps]
  rcases hsp : splitAll '/' (dropTrailing '/' p) with _ | ⟨a, _ | ⟨b, _ | ⟨c, rest⟩⟩⟩
  · exact ⟨"Cannot determine scope from URL", rfl⟩
  · by_cases hca : a = []
    · refine ⟨"Cannot determine scope from URL", ?_⟩
      show (if a ≠ [] then Except.ok (RunnerScope.Organization a)
        else Except.error "Cannot determine scope from URL") = _
      rw [if_neg (not_not_intro hca)]
    · exact absurd (Or.inl ⟨a, hsp, hca⟩) hbad
  · by_cases hcc : a ≠ [] ∧ b ≠ []
    · exact absurd (Or.inr ⟨a, b, hsp, hcc.1, hcc.2⟩) hbad
    · refine ⟨"Cannot determine scope from URL", ?_⟩
      show (if a ≠ [] ∧ b ≠ [] then Except.ok (RunnerScope.Repository a b)
        else Except.error "Cannot determine scope from URL") = _
      rw [if_neg hcc]
  · exact ⟨"Cannot determine scope from URL", rfl⟩

/-- C7: `from_github_url` succeeds exactly on `http(s)://github.com/`
URLs whose remaining path — trailing slashes ignored — has exactly one
non-empty segment (an organization) or exactly two non-empty segments (a
repository); every other URL, non-github hosts included, errors.  The
claim's concrete examples are verified verbatim. -/
theorem c7_from_github_url :
    (∀ url p a, GithubPrefStrip url p →
      splitAll '/' (dropTrailing '/' p) = [a] → a ≠ [] →
      RunnerScope.from_github_url url = .ok (.Organization a)) ∧
    (∀ url p a b, GithubPrefStrip url p →
      splitAll '/' (dropTrailing '/' p) = [a, b] → a ≠ [] → b ≠ [] →
      RunnerScope.from_github_url url = .ok (.Repository a b)) ∧
    (∀ url, ¬ GithubUrlSpec url → ∃ e, RunnerScope.from_github_url url = .error e) ∧
    RunnerScope.from_github_url "https://github.com/a/b".data =
      .ok (.Repository "a".data "b".data) ∧
    RunnerScope.from_github_url "https://github.com/a".data =
      .ok (.Organization "a".data) ∧
    RunnerScope.from_github_url "https://github.com/a/b/".data =
      .ok (.Repository "a".data "b".data) ∧
    RunnerScope.from_github_url "http://github.com/a/b".data =
      .ok (.Repository "a".data "b".data) ∧
    RunnerScope.from_github_url "https://gitlab.com/a/b".data =
      .error "Unexpected GitHub URL format" := by
  refine ⟨?_, ?_, ?_, by decide, by decide, by decide, by decide, by decide⟩
  · intro url p a hps hsplit ha
    rw [from_github_url_strip hps, hsplit]
    simp [ha]
  · intro url p a b hps hsplit ha hb
    rw [from_github_url_strip hps, hsplit]
    simp [ha, hb]
  · intro url hspec
    cases hs1 : stripPref "https://github.com/".data url with
    | some p =>
      refine from_github_url_error_of_bad_path (Or.inl hs1) ?_
      intro hseg
      exact hspec ⟨p, Or.inl hs1, hseg⟩
    | none =>
      cases hs2 : stripPref "http://github.com/".data url with
      | some p =>
        refine from_github_url_error_of_bad_path (Or.inr ⟨hs1, hs2⟩) ?_
        intro hseg
        exact hspec ⟨p, Or.inr ⟨hs1, hs2⟩, hseg⟩
      | none =>
        refine ⟨"Unexpected GitHub URL format", ?_⟩
        unfold RunnerScope.from_github_url
        rw [hs1, hs2]
        rfl

/-- C7 witness: the repository arm at a concrete URL, with both
hypotheses discharged by evaluation. -/
theorem c7_from_github_url_witness :
    GithubPrefStrip "https://github.com/x/y".data "x/y".data ∧
    splitAll '/' (dropTrailing '/' "x/y".data) = ["x".data, "y".data] ∧
    RunnerScope.from_github_url "https://github.com/x/y".data =
      .ok (.Repository "x".data "y".data) :=
  ⟨Or.inl (by decide), by decide,
    c7_from_github_url.2.1 "https://github.com/x/y".data "x/y".data "x".data "y".data
      (Or.inl (by decide)) (by decide) (by decide) (by decide)⟩

end RunnerDashboard
